import Mathlib

/-!
Verification of the budget-tracking computation engine of the
verdant-wallet repository.

The embedding follows the TypeScript source:
* `src/utils/budgetCalculations.ts` — `calculateBudgetSummary` (the spec
  calls it `computeBudgetSummary`) and its helpers;
* `src/pages/Insights.tsx` — the category aggregation inside
  `fetchInsightsData`.

Modelling conventions:
* JavaScript `number` values are modelled as exact rationals (`ℚ`).
* JavaScript `Date` values are modelled by the `DateTime` structure
  (calendar fields plus minute-of-day, timezone-naive local semantics, as
  the data model assumes); `Date` comparison is by timestamp, modelled by
  the order-preserving injective key `DateTime.key`.
* The source's `calculateBudgetSummary` calls `new Date()` internally.
  That impure clock read is embedded as an extra explicit argument
  `today`: `calculateBudgetSummary b t m y today` is the result of the
  source function when the system clock reads `today` at the moment of the
  call.  All other arguments are the source function's own parameters.
* Lists stand for JavaScript arrays, preserving order.
-/

/-- A calendar date with a time of day (minutes past midnight), modelling a
JavaScript `Date` under timezone-naive local semantics.  `month` is 1–12. -/
structure DateTime where
  year : Int
  month : Nat
  day : Nat
  minute : Nat
deriving Repr, DecidableEq

/-- Order-preserving injective key for `DateTime` values with in-range
fields, standing for the epoch-milliseconds timestamp a JavaScript `Date`
compares by. -/
def DateTime.key (d : DateTime) : Int :=
  ((d.year * 13 + (d.month : Int)) * 32 + (d.day : Int)) * 1440 + (d.minute : Int)

/-- `a <= b` on JavaScript `Date`s (timestamp comparison). -/
def DateTime.leb (a b : DateTime) : Bool :=
  decide (a.key ≤ b.key)

/-- `a < b` on JavaScript `Date`s (timestamp comparison). -/
def DateTime.ltb (a b : DateTime) : Bool :=
  decide (a.key < b.key)

/-- Gregorian leap-year rule, as implemented by the JavaScript `Date`
calendar. -/
def isLeapYear (y : Int) : Bool :=
  (y % 4 == 0 && y % 100 != 0) || (y % 400 == 0)

/-- Number of days of month `m` (1–12) of year `y`, as computed by
`new Date(year, m, 0).getDate()` in the source; `0` for out-of-range
months (the spec makes months outside 1–12 a caller error). -/
def daysInMonth (y : Int) (m : Nat) : Nat :=
  match m with
  | 1 => 31
  | 2 => if isLeapYear y then 29 else 28
  | 3 => 31
  | 4 => 30
  | 5 => 31
  | 6 => 30
  | 7 => 31
  | 8 => 31
  | 9 => 30
  | 10 => 31
  | 11 => 30
  | 12 => 31
  | _ => 0

/-- Transaction type tag, from the `'income' | 'expense'` union in the
source. -/
inductive TxType where
  | income
  | expense
deriving Repr, DecidableEq

/-- A transaction row as consumed by `calculateBudgetSummary`
(src/utils/budgetCalculations.ts).  `transaction_date` is the parsed
`new Date(t.transaction_date)` value. -/
structure Transaction where
  amount : ℚ
  type : TxType
  transaction_date : DateTime
deriving Repr, DecidableEq

/-- A budget row as consumed by `calculateBudgetSummary`. -/
structure Budget where
  amount : ℚ
  category_id : Option String
deriving Repr, DecidableEq

/-- Budget status, from the `'safe' | 'warning' | 'danger'` union in the
source. -/
inductive Status where
  | safe
  | warning
  | danger
deriving Repr, DecidableEq

/-- The record returned by `calculateBudgetSummary`.  `daysLeft` is an
integer (the source's `Math.max(0, …)` of an integer difference). -/
structure BudgetSummary where
  totalBudget : ℚ
  totalSpent : ℚ
  remaining : ℚ
  dailyAllowance : ℚ
  daysLeft : Int
  percentage : ℚ
  status : Status
deriving Repr, DecidableEq

/-- The expense filter of `calculateBudgetSummary`: `type === 'expense'`
and `startOfMonth <= transactionDate <= endOfMonth`, where both bounds are
midnight-valued `Date`s built by `new Date(year, month - 1, 1)` and
`new Date(year, month, 0)`. -/
def isMonthlyExpense (month : Nat) (year : Int) (t : Transaction) : Bool :=
  let startOfMonth : DateTime := ⟨year, month, 1, 0⟩
  let endOfMonth : DateTime := ⟨year, month, daysInMonth year month, 0⟩
  t.type == TxType.expense
    && DateTime.leb startOfMonth t.transaction_date
    && DateTime.leb t.transaction_date endOfMonth

/-- Embedding of `calculateBudgetSummary` from
src/utils/budgetCalculations.ts.  The `today` argument is the value the
source reads with `new Date()` inside the function body (the system clock
at call time); the source signature has only the first four parameters. -/
def calculateBudgetSummary (budgets : List Budget) (transactions : List Transaction)
    (month : Nat) (year : Int) (today : DateTime) : BudgetSummary :=
  let totalBudget : ℚ := budgets.foldl (fun sum budget => sum + budget.amount) 0
  let monthlyExpenses := transactions.filter (isMonthlyExpense month year)
  let totalSpent : ℚ := monthlyExpenses.foldl (fun sum t => sum + t.amount) 0
  let remaining : ℚ := totalBudget - totalSpent
  -- const lastDay = new Date(year, month, 0);
  -- const daysLeft = Math.max(0, lastDay.getDate() - today.getDate() + 1);
  let daysLeft : Int := max 0 ((daysInMonth year month : Int) - (today.day : Int) + 1)
  let dailyAllowance : ℚ := if daysLeft > 0 then max 0 (remaining / (daysLeft : ℚ)) else 0
  let percentage : ℚ := if totalBudget > 0 then totalSpent / totalBudget * 100 else 0
  let status : Status :=
    if percentage > 100 then Status.danger
    else if percentage > 80 then Status.warning
    else Status.safe
  { totalBudget := totalBudget
    totalSpent := totalSpent
    remaining := remaining
    dailyAllowance := dailyAllowance
    daysLeft := daysLeft
    percentage := percentage
    status := status }

/-!
The category aggregation of `fetchInsightsData` in src/pages/Insights.tsx.
The rows arrive from the storage query already filtered by user, type and
date range; the aggregation groups them with a `Map` keyed by the joined
category's display name.
-/

/-- The joined category record embedded on a fetched row
(`categories (name, color, icon)` in the query of Insights.tsx); `icon` is
optional in the row type. -/
structure JoinedCategory where
  name : String
  color : String
  icon : Option String
deriving Repr, DecidableEq

/-- A row of the Insights query result.  The source row type carries
`amount`, `type` and the optional joined `categories` object; we also keep
the underlying `category_id` of the stored transaction (not selected by the
query, hence never consulted by the aggregation) so that statements about
grouping by id can be expressed. -/
structure InsightRow where
  amount : ℚ
  type : TxType
  category_id : Option String
  categories : Option JoinedCategory
deriving Repr, DecidableEq

/-- `typedTransaction.categories?.name || 'Uncategorized'`: the `||`
default also replaces an empty (falsy) name. -/
def resolvedName (r : InsightRow) : String :=
  match r.categories with
  | none => "Uncategorized"
  | some c => if c.name = "" then "Uncategorized" else c.name

/-- `typedTransaction.categories?.color || '#6B7280'`. -/
def resolvedColor (r : InsightRow) : String :=
  match r.categories with
  | none => "#6B7280"
  | some c => if c.color = "" then "#6B7280" else c.color

/-- `typedTransaction.categories?.icon || '📄'`. -/
def resolvedIcon (r : InsightRow) : String :=
  match r.categories with
  | none => "📄"
  | some c =>
    match c.icon with
    | none => "📄"
    | some i => if i = "" then "📄" else i

/-- One bucket of the aggregation `Map` together with the display metadata
stored at first insertion (`{ total, color, icon }` keyed by name). -/
structure Entry where
  name : String
  total : ℚ
  color : String
  icon : String
deriving Repr, DecidableEq

/-- `Map.set` semantics on the insertion-ordered bucket list: an existing
key accumulates in place, a new key is appended, keeping the metadata of
the first row of the bucket. -/
def insertRow (acc : List Entry) (name : String) (amount : ℚ)
    (color icon : String) : List Entry :=
  match acc with
  | [] => [⟨name, amount, color, icon⟩]
  | e :: rest =>
    if e.name = name then ⟨e.name, e.total + amount, e.color, e.icon⟩ :: rest
    else e :: insertRow rest name amount color icon

/-- The `forEach` loop of `fetchInsightsData`: folds the rows into the
insertion-ordered bucket list and the running grand `total`. -/
def aggregateStep (st : List Entry × ℚ) (r : InsightRow) : List Entry × ℚ :=
  (insertRow st.1 (resolvedName r) r.amount (resolvedColor r) (resolvedIcon r),
   st.2 + r.amount)

/-- The grouping stage of `fetchInsightsData`: the bucket `Map` (as its
insertion-ordered entry list) and the grand total, before sorting. -/
def aggregateByCategory (rows : List InsightRow) : List Entry × ℚ :=
  rows.foldl aggregateStep ([], 0)

/-- A datum of the sorted chart array built from the `Map`
(`{ name, value, color, icon }`). -/
structure CategoryData where
  name : String
  value : ℚ
  color : String
  icon : String
deriving Repr, DecidableEq

/-- The full pipeline of `fetchInsightsData` after the query: group, then
`.sort((a, b) => b.value - a.value)` (stable, descending by value).
Returns the chart data and the grand total. -/
def fetchInsightsAggregate (rows : List InsightRow) : List CategoryData × ℚ :=
  let st := aggregateByCategory rows
  let data := (st.1.map fun e => CategoryData.mk e.name e.total e.color e.icon).mergeSort
    (fun a b => decide (b.value ≤ a.value))
  (data, st.2)

/-- Amount accumulated for the bucket named `n` (sum over matching entries;
with distinct names this is the single bucket's total, and `0` when no such
bucket exists). -/
def entryTotal (l : List Entry) (n : String) : ℚ :=
  ((l.filter fun e => e.name == n).map Entry.total).sum

/-!
State-passing embedding for the frame property: the JavaScript array
methods the source calls are modelled as state transformers that return
the observed value together with the array after the call (per their
specification, `reduce` and `filter` do not mutate the receiver).
-/

/-- `Array.prototype.reduce`: returns the accumulated value and the
receiver array after the call. -/
def jsReduce {α β : Type} (arr : List α) (f : β → α → β) (init : β) : β × List α :=
  (arr.foldl f init, arr)

/-- `Array.prototype.filter`: returns the new filtered array and the
receiver array after the call. -/
def jsFilter {α : Type} (arr : List α) (p : α → Bool) : List α × List α :=
  (arr.filter p, arr)

/-- `calculateBudgetSummary` re-expressed over the state-passing array
primitives: returns the summary together with the `budgets` and
`transactions` arrays as they stand after the call. -/
def calculateBudgetSummaryST (budgets : List Budget) (transactions : List Transaction)
    (month : Nat) (year : Int) (today : DateTime) :
    BudgetSummary × List Budget × List Transaction :=
  let r1 := jsReduce budgets (fun sum budget => sum + budget.amount) (0 : ℚ)
  let totalBudget := r1.1
  let budgetsAfter := r1.2
  let r2 := jsFilter transactions (isMonthlyExpense month year)
  let monthlyExpenses := r2.1
  let transactionsAfter := r2.2
  let r3 := jsReduce monthlyExpenses (fun sum t => sum + t.amount) (0 : ℚ)
  let totalSpent := r3.1
  let remaining := totalBudget - totalSpent
  let daysLeft : Int := max 0 ((daysInMonth year month : Int) - (today.day : Int) + 1)
  let dailyAllowance : ℚ := if daysLeft > 0 then max 0 (remaining / (daysLeft : ℚ)) else 0
  let percentage : ℚ := if totalBudget > 0 then totalSpent / totalBudget * 100 else 0
  let status : Status :=
    if percentage > 100 then Status.danger
    else if percentage > 80 then Status.warning
    else Status.safe
  (⟨totalBudget, totalSpent, remaining, dailyAllowance, daysLeft, percentage, status⟩,
   budgetsAfter, transactionsAfter)

/-!
Projection lemmas: each field of the returned summary, read back from the
definition.
-/

theorem calc_remaining_def (budgets : List Budget) (transactions : List Transaction)
    (month : Nat) (year : Int) (today : DateTime) :
    (calculateBudgetSummary budgets transactions month year today).remaining =
      (calculateBudgetSummary budgets transactions month year today).totalBudget -
      (calculateBudgetSummary budgets transactions month year today).totalSpent := rfl

theorem calc_percentage_def (budgets : List Budget) (transactions : List Transaction)
    (month : Nat) (year : Int) (today : DateTime) :
    (calculateBudgetSummary budgets transactions month year today).percentage =
      (if (calculateBudgetSummary budgets transactions month year today).totalBudget > 0 then
        (calculateBudgetSummary budgets transactions month year today).totalSpent /
          (calculateBudgetSummary budgets transactions month year today).totalBudget * 100
      else 0) := rfl

theorem calc_status_def (budgets : List Budget) (transactions : List Transaction)
    (month : Nat) (year : Int) (today : DateTime) :
    (calculateBudgetSummary budgets transactions month year today).status =
      (if (calculateBudgetSummary budgets transactions month year today).percentage > 100 then
        Status.danger
      else if (calculateBudgetSummary budgets transactions month year today).percentage > 80 then
        Status.warning
      else Status.safe) := rfl

theorem calc_daysLeft_def (budgets : List Budget) (transactions : List Transaction)
    (month : Nat) (year : Int) (today : DateTime) :
    (calculateBudgetSummary budgets transactions month year today).daysLeft =
      max 0 ((daysInMonth year month : Int) - (today.day : Int) + 1) := rfl

theorem calc_dailyAllowance_def (budgets : List Budget) (transactions : List Transaction)
    (month : Nat) (year : Int) (today : DateTime) :
    (calculateBudgetSummary budgets transactions month year today).dailyAllowance =
      (if (calculateBudgetSummary budgets transactions month year today).daysLeft > 0 then
        max 0 ((calculateBudgetSummary budgets transactions month year today).remaining /
          ((calculateBudgetSummary budgets transactions month year today).daysLeft : ℚ))
      else 0) := rfl

/-- Folding `fun s x => s + f x` from `init` is `init` plus the sum of the
mapped list. -/
theorem foldl_add_map {α : Type} (f : α → ℚ) :
    ∀ (l : List α) (init : ℚ), l.foldl (fun s x => s + f x) init = init + (l.map f).sum := by
  intro l
  induction l with
  | nil => intro init; simp
  | cons x xs ih =>
    intro init
    simp [List.foldl_cons, ih (init + f x), add_assoc]

theorem calc_totalSpent_def (budgets : List Budget) (transactions : List Transaction)
    (month : Nat) (year : Int) (today : DateTime) :
    (calculateBudgetSummary budgets transactions month year today).totalSpent =
      ((transactions.filter (isMonthlyExpense month year)).map Transaction.amount).sum := by
  have h := foldl_add_map Transaction.amount (transactions.filter (isMonthlyExpense month year)) 0
  simpa using h

theorem calc_totalBudget_def (budgets : List Budget) (transactions : List Transaction)
    (month : Nat) (year : Int) (today : DateTime) :
    (calculateBudgetSummary budgets transactions month year today).totalBudget =
      (budgets.map Budget.amount).sum := by
  have h := foldl_add_map Budget.amount budgets 0
  simpa using h

/-- C5: the returned status encodes the fixed thresholds: `danger` iff
`percentage > 100`, `warning` iff `80 < percentage <= 100`, `safe` iff
`percentage <= 80`. -/
theorem C5_status_thresholds (budgets : List Budget) (transactions : List Transaction)
    (month : Nat) (year : Int) (today : DateTime) :
    ((calculateBudgetSummary budgets transactions month year today).status = Status.danger ↔
      100 < (calculateBudgetSummary budgets transactions month year today).percentage) ∧
    ((calculateBudgetSummary budgets transactions month year today).status = Status.warning ↔
      80 < (calculateBudgetSummary budgets transactions month year today).percentage ∧
        (calculateBudgetSummary budgets transactions month year today).percentage ≤ 100) ∧
    ((calculateBudgetSummary budgets transactions month year today).status = Status.safe ↔
      (calculateBudgetSummary budgets transactions month year today).percentage ≤ 80) := by
  have h := calc_status_def budgets transactions month year today
  by_cases h1 : 100 < (calculateBudgetSummary budgets transactions month year today).percentage
  · rw [if_pos h1] at h
    refine ⟨⟨fun _ => h1, fun _ => h⟩, ⟨fun hw => ?_, fun hw => absurd h1 (not_lt.mpr hw.2)⟩,
      ⟨fun hs => ?_, fun hs => absurd (lt_trans (by norm_num) h1) (not_lt.mpr hs)⟩⟩
    · rw [h] at hw; exact absurd hw (by simp)
    · rw [h] at hs; exact absurd hs (by simp)
  · rw [if_neg h1] at h
    by_cases h2 : 80 < (calculateBudgetSummary budgets transactions month year today).percentage
    · rw [if_pos h2] at h
      refine ⟨⟨fun hd => ?_, fun hd => absurd hd h1⟩,
        ⟨fun _ => ⟨h2, not_lt.mp h1⟩, fun _ => h⟩, ⟨fun hs => ?_, fun hs => absurd h2 (not_lt.mpr hs)⟩⟩
      · rw [h] at hd; exact absurd hd (by simp)
      · rw [h] at hs; exact absurd hs (by simp)
    · rw [if_neg h2] at h
      refine ⟨⟨fun hd => ?_, fun hd => absurd hd h1⟩,
        ⟨fun hw => ?_, fun hw => absurd hw.1 h2⟩, ⟨fun _ => not_lt.mp h2, fun _ => h⟩⟩
      · rw [h] at hd; exact absurd hd (by simp)
      · rw [h] at hw; exact absurd hw (by simp)

/-- C6: `dailyAllowance` equals `max(0, remaining / daysLeft)` when
`daysLeft > 0` and `0` when `daysLeft <= 0`; in particular it is never
negative, even when `remaining` is. -/
theorem C6_daily_allowance (budgets : List Budget) (transactions : List Transaction)
    (month : Nat) (year : Int) (today : DateTime) :
    ((calculateBudgetSummary budgets transactions month year today).dailyAllowance =
      (if (calculateBudgetSummary budgets transactions month year today).daysLeft > 0 then
        max 0 ((calculateBudgetSummary budgets transactions month year today).remaining /
          ((calculateBudgetSummary budgets transactions month year today).daysLeft : ℚ))
      else 0)) ∧
    0 ≤ (calculateBudgetSummary budgets transactions month year today).dailyAllowance := by
  refine ⟨calc_dailyAllowance_def budgets transactions month year today, ?_⟩
  rw [calc_dailyAllowance_def budgets transactions month year today]
  by_cases h : (calculateBudgetSummary budgets transactions month year today).daysLeft > 0
  · rw [if_pos h]; exact le_max_left 0 _
  · rw [if_neg h]

/-- C7: the function is total (it raises nothing on any input), and in the
degenerate case `totalBudget = 0` it normalizes to neutral values:
`percentage = 0`, `status = safe`, `remaining = -totalSpent` (possibly
negative). -/
theorem C7_zero_budget (budgets : List Budget) (transactions : List Transaction)
    (month : Nat) (year : Int) (today : DateTime)
    (h : (calculateBudgetSummary budgets transactions month year today).totalBudget = 0) :
    (calculateBudgetSummary budgets transactions month year today).percentage = 0 ∧
    (calculateBudgetSummary budgets transactions month year today).status = Status.safe ∧
    (calculateBudgetSummary budgets transactions month year today).remaining =
      -(calculateBudgetSummary budgets transactions month year today).totalSpent := by
  have hpct : (calculateBudgetSummary budgets transactions month year today).percentage = 0 := by
    rw [calc_percentage_def budgets transactions month year today, h]
    norm_num
  refine ⟨hpct, ?_, ?_⟩
  · rw [calc_status_def budgets transactions month year today, hpct]
    norm_num
  · rw [calc_remaining_def budgets transactions month year today, h, zero_sub]

/-- Witness for C7: with no budget rows and one January expense of 5, the
summary normalizes to `percentage = 0`, `status = safe`,
`remaining = -totalSpent`. -/
theorem C7_zero_budget_witness :
    (calculateBudgetSummary [] [⟨5, TxType.expense, ⟨2024, 1, 15, 0⟩⟩] 1 2024
      ⟨2024, 1, 20, 0⟩).percentage = 0 ∧
    (calculateBudgetSummary [] [⟨5, TxType.expense, ⟨2024, 1, 15, 0⟩⟩] 1 2024
      ⟨2024, 1, 20, 0⟩).status = Status.safe ∧
    (calculateBudgetSummary [] [⟨5, TxType.expense, ⟨2024, 1, 15, 0⟩⟩] 1 2024
      ⟨2024, 1, 20, 0⟩).remaining =
      -(calculateBudgetSummary [] [⟨5, TxType.expense, ⟨2024, 1, 15, 0⟩⟩] 1 2024
        ⟨2024, 1, 20, 0⟩).totalSpent :=
  C7_zero_budget [] [⟨5, TxType.expense, ⟨2024, 1, 15, 0⟩⟩] 1 2024 ⟨2024, 1, 20, 0⟩ rfl

/-- C9: `remaining` is exactly `totalBudget - totalSpent`, and it can be
negative (one January expense of 5 with no budgets gives `-5`). -/
theorem C9_remaining_exact :
    (∀ (budgets : List Budget) (transactions : List Transaction) (month : Nat) (year : Int)
      (today : DateTime),
      (calculateBudgetSummary budgets transactions month year today).remaining =
        (calculateBudgetSummary budgets transactions month year today).totalBudget -
        (calculateBudgetSummary budgets transactions month year today).totalSpent) ∧
    ∃ (budgets : List Budget) (transactions : List Transaction) (month : Nat) (year : Int)
      (today : DateTime),
      (calculateBudgetSummary budgets transactions month year today).remaining < 0 := by
  refine ⟨fun budgets transactions month year today => rfl,
    [], [⟨5, TxType.expense, ⟨2024, 1, 15, 0⟩⟩], 1, 2024, ⟨2024, 1, 20, 0⟩, ?_⟩
  rw [calc_remaining_def, calc_totalBudget_def, calc_totalSpent_def]
  have hf : List.filter (isMonthlyExpense 1 2024)
      [⟨5, TxType.expense, ⟨2024, 1, 15, 0⟩⟩] =
      [⟨5, TxType.expense, ⟨2024, 1, 15, 0⟩⟩] := by decide
  rw [hf]
  norm_num

/-- C1 counterexample: with the internal `new Date()` clock read embedded
as the `today` argument, two calls with identical source-level arguments
(`budgets`, `transactions`, `month`, `year`) but different system dates
return different summaries (`daysLeft` 27 vs 22), so the source function is
not independent of the system clock. -/
theorem C1_counterexample :
    calculateBudgetSummary [] [] 1 2024 ⟨2024, 1, 5, 0⟩ ≠
      calculateBudgetSummary [] [] 1 2024 ⟨2024, 1, 10, 0⟩ := by
  intro h
  have hd := congrArg BudgetSummary.daysLeft h
  rw [calc_daysLeft_def, calc_daysLeft_def] at hd
  exact absurd hd (by decide)

/-- C1 amended: `calculateBudgetSummary` reads the current date from the
system clock rather than taking it as a parameter; its result depends on
that clock reading only through the day-of-month, and it is deterministic
once the clock reading is fixed: two calls whose clock readings share the
same day-of-month agree on all inputs. -/
theorem C1_clock_day_determines (budgets : List Budget) (transactions : List Transaction)
    (month : Nat) (year : Int) (today₁ today₂ : DateTime) (h : today₁.day = today₂.day) :
    calculateBudgetSummary budgets transactions month year today₁ =
      calculateBudgetSummary budgets transactions month year today₂ := by
  unfold calculateBudgetSummary
  rw [h]

/-- Witness for the amended C1: two clock readings in different months,
both on day 5, give identical summaries. -/
theorem C1_clock_day_determines_witness :
    calculateBudgetSummary [] [] 1 2024 ⟨2024, 1, 5, 0⟩ =
      calculateBudgetSummary [] [] 1 2024 ⟨2023, 7, 5, 300⟩ :=
  C1_clock_day_determines [] [] 1 2024 ⟨2024, 1, 5, 0⟩ ⟨2023, 7, 5, 300⟩ rfl

/-- C2 counterexample: for target period April 2024 and a `today` of
May 5, 2024 — strictly after every instant of the period — the claim
requires `daysLeft = 0`, but the code returns
`max(0, 30 - 5 + 1) = 26`: the computation uses only today's day-of-month
and ignores today's month and year. -/
theorem C2_counterexample :
    DateTime.ltb ⟨2024, 4, 30, 1439⟩ ⟨2024, 5, 5, 0⟩ = true ∧
    (calculateBudgetSummary [] [] 4 2024 ⟨2024, 5, 5, 0⟩).daysLeft = 26 ∧
    (calculateBudgetSummary [] [] 4 2024 ⟨2024, 5, 5, 0⟩).daysLeft ≠ 0 := by
  refine ⟨by decide, ?_, ?_⟩ <;> rw [calc_daysLeft_def] <;> decide

/-- C2 amended: `daysLeft = max(0, lastDayOfTargetMonth - today.day + 1)`
unconditionally, computed from today's day-of-month alone; this matches
the claimed formula when `today` lies in the target month, but it is
neither `0` when `today` is after the period nor the month length when
`today` is before it. -/
theorem C2_daysLeft_day_of_month_only (budgets : List Budget) (transactions : List Transaction)
    (month : Nat) (year : Int) (today : DateTime) :
    (calculateBudgetSummary budgets transactions month year today).daysLeft =
      max 0 ((daysInMonth year month : Int) - (today.day : Int) + 1) :=
  calc_daysLeft_def budgets transactions month year today

/-- The spec's expense filter, stated from the spec's words for comparison
with the source's `isMonthlyExpense`: `type == expense` and
`transaction_date` within the calendar-day range
`[firstDayOfMonth, lastDayOfMonth]`, inclusive of the whole last day (any
time of day, 1439 = 23:59). -/
def spec_isExpenseInMonth (month : Nat) (year : Int) (t : Transaction) : Bool :=
  t.type == TxType.expense
    && DateTime.leb ⟨year, month, 1, 0⟩ t.transaction_date
    && DateTime.leb t.transaction_date ⟨year, month, daysInMonth year month, 1439⟩

/-- C3 counterexample: an expense of 5 timestamped 10:00 on
January 31, 2024 (the last calendar day of the month — the spec's filter
accepts it, so the claim requires `totalSpent = 5`), but the code compares
against midnight of the last day and returns `totalSpent = 0`. -/
theorem C3_counterexample :
    (calculateBudgetSummary [] [⟨5, TxType.expense, ⟨2024, 1, 31, 600⟩⟩] 1 2024
      ⟨2024, 1, 20, 0⟩).totalSpent = 0 ∧
    ((([⟨5, TxType.expense, ⟨2024, 1, 31, 600⟩⟩] : List Transaction).filter
        (spec_isExpenseInMonth 1 2024)).map Transaction.amount).sum = 5 ∧
    daysInMonth 2024 1 = 31 := by
  refine ⟨?_, ?_, by decide⟩
  · rw [calc_totalSpent_def]
    have hf : List.filter (isMonthlyExpense 1 2024)
        [⟨5, TxType.expense, ⟨2024, 1, 31, 600⟩⟩] = [] := by decide
    rw [hf]
    simp
  · have hf : List.filter (spec_isExpenseInMonth 1 2024)
        [⟨5, TxType.expense, ⟨2024, 1, 31, 600⟩⟩] =
        [⟨5, TxType.expense, ⟨2024, 1, 31, 600⟩⟩] := by decide
    rw [hf]
    simp

/-- C3 amended: `totalSpent` sums the amounts of exactly the transactions
with `type == expense` and `startOfMonth <= transaction_date <= endOfMonth`,
where `endOfMonth` is midnight (00:00) of the last day of the month — so an
expense with a later time of day on the last calendar day is excluded. -/
theorem C3_totalSpent_midnight_cutoff (budgets : List Budget) (transactions : List Transaction)
    (month : Nat) (year : Int) (today : DateTime) :
    (calculateBudgetSummary budgets transactions month year today).totalSpent =
      ((transactions.filter (isMonthlyExpense month year)).map Transaction.amount).sum :=
  calc_totalSpent_def budgets transactions month year today

/-- Inserting a row adds its amount to the sum of all bucket totals. -/
theorem insertRow_total_sum (acc : List Entry) (n : String) (a : ℚ) (c i : String) :
    ((insertRow acc n a c i).map Entry.total).sum = (acc.map Entry.total).sum + a := by
  induction acc with
  | nil => simp [insertRow]
  | cons e rest ih =>
    by_cases h : e.name = n
    · simp only [insertRow, if_pos h, List.map_cons, List.sum_cons]
      ring
    · simp only [insertRow, if_neg h, List.map_cons, List.sum_cons, ih]
      ring

/-- Inserting a row adds its amount to the bucket named by its key and to
no other bucket. -/
theorem insertRow_entryTotal (acc : List Entry) (n : String) (a : ℚ) (c i : String)
    (m : String) :
    entryTotal (insertRow acc n a c i) m =
      entryTotal acc m + (if n = m then a else 0) := by
  induction acc with
  | nil =>
    by_cases hm : n = m
    · simp [insertRow, entryTotal, hm]
    · simp [insertRow, entryTotal, hm]
  | cons e rest ih =>
    by_cases h : e.name = n
    · by_cases hm : e.name = m
      · have hnm : n = m := h.symm.trans hm
        simp only [insertRow, if_pos h, entryTotal, List.filter_cons, hm,
          beq_self_eq_true, if_true, List.map_cons, List.sum_cons, hnm]
        ring
      · have hnm : ¬n = m := fun hh => hm (h.trans hh)
        have hb : (e.name == m) = false := by simpa using hm
        simp [insertRow, if_pos h, entryTotal, List.filter_cons, hb, hnm]
    · by_cases hm : e.name = m
      · have hrec := ih
        simp only [entryTotal, List.filter_cons] at hrec ⊢
        have hb : (e.name == m) = true := by simpa using hm
        simp only [insertRow, if_neg h, List.filter_cons, hb, if_true,
          List.map_cons, List.sum_cons, hrec]
        ring
      · have hrec := ih
        simp only [entryTotal, List.filter_cons] at hrec ⊢
        have hb : (e.name == m) = false := by simpa using hm
        simp only [insertRow, if_neg h, List.filter_cons, hb, Bool.false_eq_true,
          if_false, hrec]

/-- The bucket names after an insertion: unchanged when the key was
present, extended by the key (previously absent) otherwise. -/
theorem insertRow_names (acc : List Entry) (n : String) (a : ℚ) (c i : String) :
    (insertRow acc n a c i).map Entry.name = acc.map Entry.name ∨
    ((insertRow acc n a c i).map Entry.name = acc.map Entry.name ++ [n] ∧
      n ∉ acc.map Entry.name) := by
  induction acc with
  | nil =>
    right
    simp [insertRow]
  | cons e rest ih =>
    by_cases h : e.name = n
    · left
      simp [insertRow, h]
    · rcases ih with ih | ⟨ih1, ih2⟩
      · left
        simp [insertRow, h, ih]
      · right
        refine ⟨by simp [insertRow, h, ih1], ?_⟩
        simp only [List.map_cons, List.mem_cons]
        rintro (heq | hmem)
        · exact h heq.symm
        · exact ih2 hmem

/-- Insertion preserves distinctness of bucket names. -/
theorem insertRow_nodup (acc : List Entry) (n : String) (a : ℚ) (c i : String)
    (h : (acc.map Entry.name).Nodup) :
    ((insertRow acc n a c i).map Entry.name).Nodup := by
  rcases insertRow_names acc n a c i with heq | ⟨heq, hmem⟩
  · rw [heq]; exact h
  · rw [heq]
    rw [List.nodup_append]
    exact ⟨h, List.nodup_singleton n, by simpa [List.disjoint_singleton] using hmem⟩

/-- The running total of the aggregation fold accumulates every row's
amount. -/
theorem aggregate_go_total (rows : List InsightRow) :
    ∀ st : List Entry × ℚ,
      (rows.foldl aggregateStep st).2 = st.2 + (rows.map InsightRow.amount).sum := by
  induction rows with
  | nil => intro st; simp
  | cons r rest ih =>
    intro st
    simp only [List.foldl_cons, List.map_cons, List.sum_cons, ih, aggregateStep]
    ring

/-- The sum of all bucket totals after the aggregation fold accumulates
every row's amount. -/
theorem aggregate_go_entrySum (rows : List InsightRow) :
    ∀ st : List Entry × ℚ,
      (((rows.foldl aggregateStep st).1).map Entry.total).sum =
        (st.1.map Entry.total).sum + (rows.map InsightRow.amount).sum := by
  induction rows with
  | nil => intro st; simp
  | cons r rest ih =>
    intro st
    simp only [List.foldl_cons, List.map_cons, List.sum_cons, ih, aggregateStep]
    rw [insertRow_total_sum]
    ring

/-- After the aggregation fold, the bucket named `m` holds exactly the sum
of the amounts of the rows whose resolved category name is `m`. -/
theorem aggregate_go_entryTotal (rows : List InsightRow) (m : String) :
    ∀ st : List Entry × ℚ,
      entryTotal (rows.foldl aggregateStep st).1 m =
        entryTotal st.1 m +
          ((rows.filter fun r => resolvedName r == m).map InsightRow.amount).sum := by
  induction rows with
  | nil => intro st; simp
  | cons r rest ih =>
    intro st
    simp only [List.foldl_cons, ih, aggregateStep]
    rw [insertRow_entryTotal]
    by_cases h : resolvedName r = m
    · have hb : (resolvedName r == m) = true := by simpa using h
      simp only [List.filter_cons, hb]
      simp only [if_true, List.map_cons, List.sum_cons]
      rw [if_pos h]
      ring
    · have hb : (resolvedName r == m) = false := by simpa using h
      simp only [List.filter_cons, hb, Bool.false_eq_true, if_false, h, if_false,
        ↓reduceIte, add_zero]

/-- The aggregation fold keeps bucket names pairwise distinct. -/
theorem aggregate_go_nodup (rows : List InsightRow) :
    ∀ st : List Entry × ℚ, (st.1.map Entry.name).Nodup →
      (((rows.foldl aggregateStep st).1).map Entry.name).Nodup := by
  induction rows with
  | nil => intro st h; exact h
  | cons r rest ih =>
    intro st h
    exact ih _ (insertRow_nodup st.1 (resolvedName r) r.amount _ _ h)

/-- C4 counterexample: two rows with distinct `category_id`s (`idA`,
`idB`) whose joined categories share the display name `Food` are merged
into a single bucket (with the first row's color and icon), so bucket
membership is not determined by `category_id`. -/
theorem C4_counterexample :
    (aggregateByCategory
      [⟨5, TxType.expense, some "idA", some ⟨"Food", "#f00", some "🍕"⟩⟩,
       ⟨7, TxType.expense, some "idB", some ⟨"Food", "#0f0", some "🍔"⟩⟩]).1 =
      [⟨"Food", 12, "#f00", "🍕"⟩] ∧
    (some "idA" : Option String) ≠ some "idB" := by
  refine ⟨?_, by decide⟩
  simp only [aggregateByCategory, List.foldl_cons, List.foldl_nil, aggregateStep,
    resolvedName, resolvedColor, resolvedIcon, insertRow]
  norm_num
  refine ⟨fun h => ?_, fun h => ?_, fun h => ?_⟩ <;> exact absurd h (by decide)

/-- C4 amended: the aggregation buckets are keyed by the joined category's
resolved display name — missing (or empty) name, color, icon resolve to
`"Uncategorized"`, `"#6B7280"`, `"📄"` — so rows share a bucket exactly
when their resolved names coincide: bucket names are pairwise distinct and
the bucket named `n` totals exactly the amounts of the rows resolving to
`n`. -/
theorem C4_grouping_by_name (rows : List InsightRow) (n : String) (amt : ℚ)
    (tp : TxType) (cid : Option String) :
    entryTotal (aggregateByCategory rows).1 n =
      ((rows.filter fun r => resolvedName r == n).map InsightRow.amount).sum ∧
    (((aggregateByCategory rows).1).map Entry.name).Nodup ∧
    resolvedName ⟨amt, tp, cid, none⟩ = "Uncategorized" ∧
    resolvedColor ⟨amt, tp, cid, none⟩ = "#6B7280" ∧
    resolvedIcon ⟨amt, tp, cid, none⟩ = "📄" := by
  refine ⟨?_, ?_, rfl, rfl, rfl⟩
  · have h := aggregate_go_entryTotal rows n ([], 0)
    simpa [entryTotal] using h
  · exact aggregate_go_nodup rows ([], 0) (by simp)

/-- C8: the chart data returned by the insights aggregation sums exactly
to the returned grand total, which equals the sum of all (pre-filtered)
row amounts, and an empty row set yields `([], 0)`. -/
theorem C8_totals_consistent (rows : List InsightRow) :
    (((fetchInsightsAggregate rows).1).map CategoryData.value).sum =
      (fetchInsightsAggregate rows).2 ∧
    (fetchInsightsAggregate rows).2 = (rows.map InsightRow.amount).sum ∧
    fetchInsightsAggregate [] = ([], 0) := by
  have htot : (aggregateByCategory rows).2 = (rows.map InsightRow.amount).sum := by
    have h := aggregate_go_total rows ([], 0)
    simpa using h
  refine ⟨?_, htot, by simp [fetchInsightsAggregate, aggregateByCategory, List.mergeSort_nil]⟩
  have hperm :
      ((((aggregateByCategory rows).1.map fun e =>
          CategoryData.mk e.name e.total e.color e.icon).mergeSort
            (fun a b => decide (b.value ≤ a.value))).map CategoryData.value).Perm
        (((aggregateByCategory rows).1.map fun e =>
          CategoryData.mk e.name e.total e.color e.icon).map CategoryData.value) :=
    (List.mergeSort_perm _ _).map CategoryData.value
  have hsum := hperm.sum_eq
  have hmap :
      (((aggregateByCategory rows).1.map fun e =>
        CategoryData.mk e.name e.total e.color e.icon).map CategoryData.value) =
      (aggregateByCategory rows).1.map Entry.total := by
    rw [List.map_map]
    rfl
  have hentry :
      ((aggregateByCategory rows).1.map Entry.total).sum =
        (rows.map InsightRow.amount).sum := by
    have h := aggregate_go_entrySum rows ([], 0)
    simpa using h
  show ((((aggregateByCategory rows).1.map fun e =>
      CategoryData.mk e.name e.total e.color e.icon).mergeSort
        (fun a b => decide (b.value ≤ a.value))).map CategoryData.value).sum = _
  rw [hsum, hmap, hentry]
  exact htot.symm

/-- C10: the state-passing embedding returns the `budgets` and
`transactions` arrays unchanged, and its summary agrees with the pure
function. -/
theorem C10_arrays_unchanged (budgets : List Budget) (transactions : List Transaction)
    (month : Nat) (year : Int) (today : DateTime) :
    (calculateBudgetSummaryST budgets transactions month year today).2.1 = budgets ∧
    (calculateBudgetSummaryST budgets transactions month year today).2.2 = transactions ∧
    (calculateBudgetSummaryST budgets transactions month year today).1 =
      calculateBudgetSummary budgets transactions month year today :=
  ⟨rfl, rfl, rfl⟩
